import Mathlib

/-!
Shallow embedding of the Kartex logging server core, checked against its
natural-language specification.  Each definition mirrors one function or
data shape of the Rust source; the theorems at the end of the file settle
the spec claims.
-/

set_option maxRecDepth 4096

namespace Kartex

/-! ## Record model (`src/db/models.rs`) -/

/-- `LogLevel` from `src/db/models.rs`: the six-valued internal level set. -/
inductive LogLevel where
  | trace
  | debug
  | info
  | warn
  | error
  | fatal
  deriving DecidableEq, Repr

/-- The uppercase wire name of a level, as produced by
`format!("{:?}", log.level).to_uppercase()` in `MetricsTracker::record_log`
and by the `Serialize` impl of `LogLevel`. -/
def LogLevel.upperName : LogLevel → String
  | .trace => "TRACE"
  | .debug => "DEBUG"
  | .info => "INFO"
  | .warn => "WARN"
  | .error => "ERROR"
  | .fatal => "FATAL"

/-! ## Syslog severities and facilities (`src/syslog/models.rs`) -/

/-- `SyslogSeverity` from `src/syslog/models.rs` (RFC 5424 severities). -/
inductive SyslogSeverity where
  | emergency
  | alert
  | critical
  | srvError
  | warning
  | notice
  | info
  | debug
  deriving DecidableEq, Repr

/-- `SyslogSeverity::from_code` from `src/syslog/models.rs`. -/
def SyslogSeverity.fromCode : ℕ → Option SyslogSeverity
  | 0 => some .emergency
  | 1 => some .alert
  | 2 => some .critical
  | 3 => some .srvError
  | 4 => some .warning
  | 5 => some .notice
  | 6 => some .info
  | 7 => some .debug
  | _ => none

/-- The numeric code of a severity (the `#[repr(u8)]` discriminant,
used as `self.severity as u8`). -/
def SyslogSeverity.code : SyslogSeverity → ℕ
  | .emergency => 0
  | .alert => 1
  | .critical => 2
  | .srvError => 3
  | .warning => 4
  | .notice => 5
  | .info => 6
  | .debug => 7

/-- `SyslogSeverity::to_log_level` from `src/syslog/models.rs`. -/
def SyslogSeverity.toLogLevel : SyslogSeverity → LogLevel
  | .emergency | .alert => .fatal
  | .critical | .srvError => .error
  | .warning => .warn
  | .notice | .info => .info
  | .debug => .debug

/-- `SyslogFacility` from `src/syslog/models.rs` (RFC 5424 facilities). -/
inductive SyslogFacility where
  | kern
  | user
  | mail
  | daemon
  | auth
  | syslog
  | lpr
  | news
  | uucp
  | cron
  | authpriv
  | ftp
  | ntp
  | audit
  | facAlert
  | clock
  | local0
  | local1
  | local2
  | local3
  | local4
  | local5
  | local6
  | local7
  deriving DecidableEq, Repr

/-- `SyslogFacility::from_code` from `src/syslog/models.rs`. -/
def SyslogFacility.fromCode : ℕ → Option SyslogFacility
  | 0 => some .kern
  | 1 => some .user
  | 2 => some .mail
  | 3 => some .daemon
  | 4 => some .auth
  | 5 => some .syslog
  | 6 => some .lpr
  | 7 => some .news
  | 8 => some .uucp
  | 9 => some .cron
  | 10 => some .authpriv
  | 11 => some .ftp
  | 12 => some .ntp
  | 13 => some .audit
  | 14 => some .facAlert
  | 15 => some .clock
  | 16 => some .local0
  | 17 => some .local1
  | 18 => some .local2
  | 19 => some .local3
  | 20 => some .local4
  | 21 => some .local5
  | 22 => some .local6
  | 23 => some .local7
  | _ => none

/-- The numeric code of a facility (the `#[repr(u8)]` discriminant,
used as `self.facility as u8`). -/
def SyslogFacility.code : SyslogFacility → ℕ
  | .kern => 0
  | .user => 1
  | .mail => 2
  | .daemon => 3
  | .auth => 4
  | .syslog => 5
  | .lpr => 6
  | .news => 7
  | .uucp => 8
  | .cron => 9
  | .authpriv => 10
  | .ftp => 11
  | .ntp => 12
  | .audit => 13
  | .facAlert => 14
  | .clock => 15
  | .local0 => 16
  | .local1 => 17
  | .local2 => 18
  | .local3 => 19
  | .local4 => 20
  | .local5 => 21
  | .local6 => 22
  | .local7 => 23

/-- The PRI-splitting step of `parse_syslog` in `src/syslog/parser.rs`:
`facility_code = pri >> 3`, `severity_code = pri & 0x07`, each resolved
through its `from_code` table. -/
def decodePri (pri : ℕ) : Option (SyslogFacility × SyslogSeverity) :=
  match SyslogFacility.fromCode (pri >>> 3), SyslogSeverity.fromCode (pri &&& 7) with
  | some f, some s => some (f, s)
  | _, _ => none

/-- PRI re-encoding: `PRI = facility×8 + severity` (spec §6 / glossary). -/
def encodePri (f : SyslogFacility) (s : SyslogSeverity) : ℕ :=
  f.code * 8 + s.code

/-! ## GELF level mapping (`src/gelf/parser.rs`) -/

/-- `GelfMessage::to_log_level` from `src/gelf/parser.rs`: maps the GELF
syslog-level integer (u8) to the internal `LogLevel`. -/
def gelfToLogLevel : ℕ → LogLevel
  | 0 => .fatal
  | 1 => .fatal
  | 2 => .fatal
  | 3 => .error
  | 4 => .warn
  | 5 => .info
  | 6 => .info
  | 7 => .debug
  | _ => .info

/-! ## Authenticated UDP (`src/udp/auth.rs`)

Bytes are modelled as natural numbers; the HMAC-SHA256 primitive comes
from an external crate (`hmac`/`sha2`), so the embedding is parameterised
by the mac function `hm : secret → payload → tag`. -/

/-- `AuthError` from `src/udp/auth.rs`.  `invalidKey` is returned when the
mac cannot be keyed; for HMAC-SHA256 (any key size accepted) this branch
is unreachable, so the embedding's total mac function never produces it. -/
inductive AuthError where
  | packetTooShort
  | invalidKey
  | invalidSignature
  deriving DecidableEq, Repr

/-- `AuthValidator::validate` from `src/udp/auth.rs`: packet format
`[32-byte HMAC signature][payload]`; splits at 32 and compares the
signature bytes with `hm secret payload`. -/
def validate (hm : List ℕ → List ℕ → List ℕ) (secret packet : List ℕ) :
    Except AuthError (List ℕ) :=
  if packet.length < 32 then .error .packetTooShort
  else
    let signature := packet.take 32
    let payload := packet.drop 32
    if signature = hm secret payload then .ok payload
    else .error .invalidSignature

/-- `AuthValidator::sign` from `src/udp/auth.rs`. -/
def sign (hm : List ℕ → List ℕ → List ℕ) (secret payload : List ℕ) : List ℕ :=
  hm secret payload

/-! ## CLEF / standard UDP payloads (`src/db/models.rs`, `src/udp/parser.rs`)

Timestamps are modelled as integers (milliseconds since epoch); JSON
metadata values as a small value type. -/

/-- `serde_json::Value`, restricted to what the embedding needs. -/
inductive JVal where
  | str (s : String)
  | num (q : ℚ)
  | bool (b : Bool)
  | null
  | arr (l : List JVal)
  | obj (l : List (String × JVal))

/-- `LogEntry` from `src/db/models.rs` (the canonical internal record). -/
structure LogEntry where
  timestamp : ℤ
  level : LogLevel
  service : String
  message : String
  message_template : Option String
  exception : Option String
  event_id : Option String
  trace_id : Option String
  span_id : Option String
  metadata : List (String × JVal)
  source_ip : String
  created_at : ℤ

/-- `SerilogLog` from `src/db/models.rs`: the decoded CLEF payload
(fields `@t`, `@m`, `@mt`, `@l`, `@x`, `@i`, `@tr`, `@sp`,
`SourceContext`, `Application`, flattened remaining properties). -/
structure SerilogLog where
  timestamp : ℤ
  message : Option String
  message_template : Option String
  level : LogLevel
  exception : Option String
  event_id : Option String
  trace_id : Option String
  span_id : Option String
  source_context : Option String
  application : Option String
  properties : List (String × JVal)

/-- `SerilogLog::into_log_entry` from `src/db/models.rs`.  `now` stands
for the `Utc::now()` ingest stamp. -/
def SerilogLog.intoLogEntry (sl : SerilogLog) (source_ip : String) (now : ℤ) :
    LogEntry :=
  let service := (sl.source_context.or sl.application).getD "unknown"
  let message := (sl.message.or sl.message_template).getD ""
  let metadata := sl.properties.filter fun kv =>
    ¬ kv.1.startsWith "@" ∧ kv.1 ≠ "SourceContext" ∧ kv.1 ≠ "Application"
  { timestamp := sl.timestamp
    level := sl.level
    service
    message
    message_template := sl.message_template
    exception := sl.exception
    event_id := sl.event_id
    trace_id := sl.trace_id
    span_id := sl.span_id
    metadata
    source_ip
    created_at := now }

/-- `IncomingLog` from `src/db/models.rs`: the standard (non-CLEF) UDP
payload shape. -/
structure IncomingLog where
  timestamp : ℤ
  level : LogLevel
  service : String
  message : String
  message_template : Option String
  exception : Option String
  metadata : List (String × JVal)

/-- `parse_standard_payload` from `src/udp/parser.rs`, after JSON
decoding: builds the `LogEntry`, leaving `event_id`, `trace_id` and
`span_id` unset. -/
def parseStandardPayload (incoming : IncomingLog) (source_ip : String) (now : ℤ) :
    LogEntry :=
  { timestamp := incoming.timestamp
    level := incoming.level
    service := incoming.service
    message := incoming.message
    message_template := incoming.message_template
    exception := incoming.exception
    event_id := none
    trace_id := none
    span_id := none
    metadata := incoming.metadata
    source_ip
    created_at := now }

/-- Modelled from the spec (§3 invariants): "if trace_id present it is a
valid hex string of length 32" with lowercase hex digits.  Used only to
compare the adapter output against the spec's validation requirement. -/
def specLowerHex (len : ℕ) (s : String) : Prop :=
  s.length = len ∧ ∀ c ∈ s.data, c ∈ "0123456789abcdef".data

instance (len : ℕ) (s : String) : Decidable (specLowerHex len s) := by
  unfold specLowerHex; infer_instance

/-! ## OTLP span conversion (`src/otlp/converter.rs`) -/

/-- `SpanStatusCode` from `src/otlp/models.rs`. -/
inductive SpanStatusCode where
  | unset
  | ok
  | spanError
  deriving DecidableEq, Repr

/-- `bytes_to_hex` from `src/otlp/converter.rs`: each byte becomes two
lowercase hex digits (`format!("{:02x}", b)`). -/
def byteToHexChars (b : ℕ) : List Char :=
  let digit := fun n => "0123456789abcdef".data.getD n '0'
  [digit (b / 16 % 16), digit (b % 16)]

/-- `bytes_to_hex` from `src/otlp/converter.rs`. -/
def bytesToHex (bytes : List ℕ) : String :=
  ⟨bytes.flatMap byteToHexChars⟩

/-- The width of the `u64` nanosecond timestamps. -/
def u64Mod : ℕ := 2 ^ 64

/-- Rust release-mode `u64` subtraction, which wraps modulo `2^64`:
the value of `end_time_unix_nano - start_time_unix_nano` in
`convert_span` for operands below `2^64`. -/
def u64WrapSub (a b : ℕ) : ℕ :=
  (a + u64Mod - b) % u64Mod

/-- The span fields of `convert_span` that the duration claim mentions. -/
structure SpanTimes where
  start_time_unix_nano : ℕ
  end_time_unix_nano : ℕ
  duration_ms : ℚ
  deriving DecidableEq, Repr

/-- The timing part of `convert_span` from `src/otlp/converter.rs`:
`duration_ms = (end_time_unix_nano - start_time_unix_nano) as f64 /
1_000_000.0`, with the `u64` subtraction wrapping and the floating-point
division modelled as exact rational division. -/
def convertSpanTimes (startNano endNano : ℕ) : SpanTimes :=
  { start_time_unix_nano := startNano
    end_time_unix_nano := endNano
    duration_ms := (u64WrapSub endNano startNano : ℚ) / 1000000 }

/-- Modelled from the spec (§3 Span): `duration_ms` "must equal
(end_nano−start_nano)/1e6", read as exact arithmetic on unbounded
integers. -/
def specDurationMs (startNano endNano : ℕ) : ℚ :=
  ((endNano : ℚ) - (startNano : ℚ)) / 1000000

/-! ## Metrics tracker (`src/realtime/metrics.rs`)

Wall-clock times are modelled in whole seconds, the granularity at which
the source compares them (every comparison goes through
`DateTime::timestamp()`). -/

/-- `METRICS_WINDOW_SECS` from `src/realtime/metrics.rs`. -/
def metricsWindowSecs : ℤ := 60

/-- `MetricsBucket` from `src/realtime/metrics.rs`: one per-second bucket. -/
structure Bucket where
  ts : ℤ
  total : ℕ
  trace : ℕ
  debug : ℕ
  info : ℕ
  warn : ℕ
  error : ℕ
  fatal : ℕ
  deriving DecidableEq, Repr

/-- `MetricsBucket::new` from `src/realtime/metrics.rs`. -/
def Bucket.new (ts : ℤ) : Bucket :=
  { ts, total := 0, trace := 0, debug := 0, info := 0, warn := 0
    error := 0, fatal := 0 }

/-- `LogsByLevel` from `src/realtime/metrics.rs`. -/
structure LogsByLevel where
  trace : ℕ
  debug : ℕ
  info : ℕ
  warn : ℕ
  error : ℕ
  fatal : ℕ
  deriving DecidableEq, Repr

/-- `MetricsTracker` state: deque of buckets (front = oldest) plus the
two monotonic counters. -/
structure Tracker where
  buckets : List Bucket
  totalLogs : ℕ
  totalErrors : ℕ
  deriving DecidableEq, Repr

/-- `MetricsTracker::new`. -/
def Tracker.init : Tracker :=
  { buckets := [], totalLogs := 0, totalErrors := 0 }

/-- The `back_mut` bucket update in `record_log_by_level`: increment
`total`, and the one per-level counter matching the level string (a
string outside the six known names increments none). -/
def bumpBucket (level : String) (b : Bucket) : Bucket :=
  { b with
    total := b.total + 1
    trace := if level = "TRACE" then b.trace + 1 else b.trace
    debug := if level = "DEBUG" then b.debug + 1 else b.debug
    info := if level = "INFO" then b.info + 1 else b.info
    warn := if level = "WARN" then b.warn + 1 else b.warn
    error := if level = "ERROR" then b.error + 1 else b.error
    fatal := if level = "FATAL" then b.fatal + 1 else b.fatal }

/-- Apply a function to the last element of a list (the deque's
`back_mut`); the empty list is left unchanged. -/
def updateLast (f : Bucket → Bucket) : List Bucket → List Bucket
  | [] => []
  | [b] => [f b]
  | b :: rest => b :: updateLast f rest

/-- The `pop_front` loop of `record_log_by_level`: drop leading buckets
whose timestamp is before the cutoff. -/
def dropOld (cutoff : ℤ) : List Bucket → List Bucket
  | [] => []
  | b :: rest => if b.ts < cutoff then dropOld cutoff rest else b :: rest

/-- `MetricsTracker::record_log_by_level` from `src/realtime/metrics.rs`,
with `now` the wall-clock second of the call. -/
def recordLogByLevel (now : ℤ) (level : String) (s : Tracker) : Tracker :=
  let isErr := level = "ERROR" ∨ level = "FATAL"
  let needNew : Bool :=
    match s.buckets.getLast? with
    | some b => decide (b.ts ≠ now)
    | none => true
  let bs1 := if needNew then s.buckets ++ [Bucket.new now] else s.buckets
  let bs2 := updateLast (bumpBucket level) bs1
  let bs3 := dropOld (now - metricsWindowSecs) bs2
  { buckets := bs3
    totalLogs := s.totalLogs + 1
    totalErrors := if isErr then s.totalErrors + 1 else s.totalErrors }

/-- `MetricsTracker::record_log` from `src/realtime/metrics.rs`: records
by the uppercase debug name of the entry's level. -/
def recordLog (now : ℤ) (level : LogLevel) (s : Tracker) : Tracker :=
  recordLogByLevel now level.upperName s

/-- `MetricsTracker::record_span` from `src/realtime/metrics.rs`: bumps
only the monotonic error counter when the span status is `Error`; the
buckets are untouched. -/
def recordSpan (code : SpanStatusCode) (s : Tracker) : Tracker :=
  if code = SpanStatusCode.spanError then
    { s with totalErrors := s.totalErrors + 1 }
  else s

/-- `RealtimeMetrics` from `src/realtime/metrics.rs`; the `f64` derived
values are modelled as exact rationals. -/
structure RealtimeMetrics where
  logs_per_second : ℚ
  error_rate : ℚ
  errors_per_second : ℚ
  logs_last_minute : ℕ
  errors_last_minute : ℕ
  logs_by_level : LogsByLevel
  timestamp : ℤ
  deriving DecidableEq, Repr

/-- The buckets that `get_metrics` counts at snapshot time `now`: those
with `timestamp ≥ cutoff`. -/
def liveBuckets (now : ℤ) (s : Tracker) : List Bucket :=
  s.buckets.filter fun b => decide (now - metricsWindowSecs ≤ b.ts)

/-- `MetricsTracker::get_metrics` from `src/realtime/metrics.rs`, with
`now` the wall-clock second of the snapshot. -/
def getMetrics (now : ℤ) (s : Tracker) : RealtimeMetrics :=
  let live := liveBuckets now s
  let total : ℕ := (live.map Bucket.total).sum
  let errors : ℕ := (live.map fun b => b.error + b.fatal).sum
  let lbl : LogsByLevel :=
    { trace := (live.map Bucket.trace).sum
      debug := (live.map Bucket.debug).sum
      info := (live.map Bucket.info).sum
      warn := (live.map Bucket.warn).sum
      error := (live.map Bucket.error).sum
      fatal := (live.map Bucket.fatal).sum }
  { logs_per_second := (total : ℚ) / 60
    error_rate := if 0 < total then (errors : ℚ) / (total : ℚ) else 0
    errors_per_second := (errors : ℚ) / 60
    logs_last_minute := total
    errors_last_minute := errors
    logs_by_level := lbl
    timestamp := now }

/-- One recorded event on the tracker (for interleaving claims). -/
inductive MOp where
  | recLog (now : ℤ) (level : String)
  | recSpan (code : SpanStatusCode)

/-- Whether an op is a `record_log` call. -/
def MOp.isLog : MOp → Bool
  | .recLog _ _ => true
  | .recSpan _ => false

/-- Apply one op to the tracker. -/
def applyOp (s : Tracker) : MOp → Tracker
  | .recLog now level => recordLogByLevel now level s
  | .recSpan code => recordSpan code s

/-- Apply a sequence of ops, oldest first. -/
def applyOps (s : Tracker) (ops : List MOp) : Tracker :=
  ops.foldl applyOp s

/-- Tracker states reachable from the fresh tracker by `record_log` /
`record_log_by_level` / `record_span` calls. -/
inductive Reachable : Tracker → Prop where
  | init : Reachable Tracker.init
  | log (now : ℤ) (level : String) {s : Tracker} :
      Reachable s → Reachable (recordLogByLevel now level s)
  | span (code : SpanStatusCode) {s : Tracker} :
      Reachable s → Reachable (recordSpan code s)

/-- Sum of the six per-level counters of a snapshot. -/
def LogsByLevel.sumLevels (l : LogsByLevel) : ℕ :=
  l.trace + l.debug + l.info + l.warn + l.error + l.fatal

/-! ## Alert engine (`src/realtime/alerts.rs`)

Wall-clock times are modelled in milliseconds; `chrono`'s
`Duration::num_seconds` truncates toward zero, which is `Int.tdiv`. -/

/-- `Duration::num_seconds` applied to a millisecond difference. -/
def numSeconds (ms : ℤ) : ℤ :=
  Int.tdiv ms 1000

/-- `AlertCondition` from `src/realtime/alerts.rs`; `f64` thresholds are
modelled as rationals. -/
inductive AlertCondition where
  | errorRate (threshold : ℚ)
  | errorsPerSecond (threshold : ℚ)
  | logsPerSecond (threshold : ℚ)
  | levelCount (level : String) (threshold : ℕ)
  deriving DecidableEq, Repr

/-- The rule fields that `check_alerts` reads.  `alertId` is the cooldown
key: the hex of the Mongo `_id` when present, else the rule name. -/
structure MAlert where
  alertId : String
  enabled : Bool
  condition : AlertCondition
  deriving DecidableEq, Repr

/-- The `LevelCount` lookup in `check_alerts`: pick the one-minute count
of the named level from the snapshot (unknown names count 0). -/
def levelCountOf (m : RealtimeMetrics) (level : String) : ℕ :=
  if level.toUpper = "TRACE" then m.logs_by_level.trace
  else if level.toUpper = "DEBUG" then m.logs_by_level.debug
  else if level.toUpper = "INFO" then m.logs_by_level.info
  else if level.toUpper = "WARN" then m.logs_by_level.warn
  else if level.toUpper = "ERROR" then m.logs_by_level.error
  else if level.toUpper = "FATAL" then m.logs_by_level.fatal
  else 0

/-- The `should_trigger` component of the condition match in
`check_alerts`. -/
def shouldTrigger (c : AlertCondition) (m : RealtimeMetrics) : Bool :=
  match c with
  | .errorRate threshold => decide (threshold < m.error_rate)
  | .errorsPerSecond threshold => decide (threshold < m.errors_per_second)
  | .logsPerSecond threshold => decide (threshold < m.logs_per_second)
  | .levelCount level threshold => decide (threshold < levelCountOf m level)

/-- The in-memory `last_triggers` cooldown map. -/
def TriggerMap : Type := String → Option ℤ

/-- The empty cooldown map of a fresh `AlertManager`. -/
def TriggerMap.empty : TriggerMap := fun _ => none

/-- Map update, as `last_triggers.insert(alert_id, now)`. -/
def TriggerMap.insert (lt : TriggerMap) (k : String) (v : ℤ) : TriggerMap :=
  fun x => if x = k then some v else lt x

/-- The per-rule loop body of `AlertManager::check_alerts`, iterated over
the rule list: skip disabled rules; skip rules whose cooldown has not
elapsed; on a triggering rule, dispatch (recorded as an event
`(alertId, now)`), update the cooldown map, and increment the stored
`trigger_count`.  Returns the final map and the dispatched events in
rule order. -/
def processAlerts (cooldownSecs now : ℤ) (m : RealtimeMetrics) :
    List MAlert → TriggerMap → TriggerMap × List (String × ℤ)
  | [], lt => (lt, [])
  | a :: rest, lt =>
    if a.enabled = false then processAlerts cooldownSecs now m rest lt
    else
      let onCooldown : Bool :=
        match lt a.alertId with
        | some lastTrigger => decide (numSeconds (now - lastTrigger) < cooldownSecs)
        | none => false
      if onCooldown then processAlerts cooldownSecs now m rest lt
      else if shouldTrigger a.condition m then
        let lt2 := lt.insert a.alertId now
        let r := processAlerts cooldownSecs now m rest lt2
        (r.1, (a.alertId, now) :: r.2)
      else processAlerts cooldownSecs now m rest lt

/-- One evaluation tick of `alert_checker_task`: a wall-clock time (ms),
the metrics snapshot it reads, and the rule set loaded from the store. -/
structure Tick where
  time : ℤ
  metrics : RealtimeMetrics
  alerts : List MAlert
  deriving DecidableEq, Repr

/-- Run a sequence of evaluation ticks, threading the cooldown map and
collecting the dispatched events in chronological order. -/
def runTicks (cooldownSecs : ℤ) : List Tick → TriggerMap → TriggerMap × List (String × ℤ)
  | [], lt => (lt, [])
  | t :: rest, lt =>
    let r1 := processAlerts cooldownSecs t.time t.metrics t.alerts lt
    let r2 := runTicks cooldownSecs rest r1.1
    (r2.1, r1.2 ++ r2.2)

/-- Tick times are nondecreasing (`Utc::now()` across successive ticks). -/
def TicksMono (ticks : List Tick) : Prop :=
  List.Chain' (fun t1 t2 => t1.time ≤ t2.time) ticks

instance (ticks : List Tick) : Decidable (TicksMono ticks) := by
  unfold TicksMono; infer_instance

/-! ## Log batcher (`src/db/batcher.rs`)

The batcher never inspects entries, so the model is generic in the
record type.  The channel is the MPSC queue (front = oldest); `store`
is the list of batches the repository received via `insert_logs`, each
batch in the order `flush_batch` drained it. -/

/-- The state of `LogBatcher::batch_processor` plus its collaborators:
the pending channel contents, the accumulation buffer, and the batches
handed to `LogRepository::insert_logs` so far. -/
structure BState (α : Type) where
  queue : List α
  batch : List α
  store : List (List α)

/-- `LogBatcher::flush_batch`: drain the buffer into the repository as
one batch, in buffer order; an empty buffer is a no-op. -/
def flushBatch {α : Type} (s : BState α) : BState α :=
  if s.batch.isEmpty then s
  else { s with batch := [], store := s.store ++ [s.batch] }

/-- The two `select!` arms of `batch_processor`: receive one queued entry
(flushing when the buffer reaches `max_batch_size`), or a flush-interval
tick (flushing a non-empty buffer). -/
inductive BStep where
  | recv
  | tick
  deriving DecidableEq, Repr

/-- One iteration of the `batch_processor` loop. -/
def bStep {α : Type} (maxBatchSize : ℕ) (s : BState α) : BStep → BState α
  | .recv =>
    match s.queue with
    | [] => s
    | l :: rest =>
      let s1 : BState α := { s with queue := rest, batch := s.batch ++ [l] }
      if maxBatchSize ≤ s1.batch.length then flushBatch s1 else s1
  | .tick => flushBatch s

/-- Run a schedule of processor iterations. -/
def bRun {α : Type} (maxBatchSize : ℕ) (steps : List BStep) (s : BState α) : BState α :=
  steps.foldl (bStep maxBatchSize) s

/-- The channel-closed arm of `batch_processor`: flush the remaining
buffer and exit. -/
def bClose {α : Type} (s : BState α) : BState α :=
  flushBatch s

/-- The initial state for a sequence of successful enqueues `inputs`:
everything still in the channel, in enqueue order. -/
def bInit {α : Type} (inputs : List α) : BState α :=
  { queue := inputs, batch := [], store := [] }

/-- Decode then re-encode a PRI value. -/
def reencodePri (pri : ℕ) : Option ℕ :=
  (decodePri pri).map fun fs => encodePri fs.1 fs.2

/-!
# Theorems
-/

/-- C7: for every syslog PRI value in 0..192, splitting into
`facility = pri >> 3` and `severity = pri & 7` succeeds through both
`from_code` tables, and re-encoding via `facility×8 + severity` yields
the original PRI: the decode/encode pair round-trips on 0..192. -/
theorem c7_pri_roundtrip (pri : ℕ) (hp : pri < 192) :
    reencodePri pri = some pri := by
  have h : ∀ q < 192, reencodePri q = some q := by decide
  exact h pri hp

/-- Witness for C7 at the concrete PRI 134 (local0.info). -/
theorem c7_pri_roundtrip_witness :
    134 < 192 ∧ reencodePri 134 = some 134 :=
  ⟨by decide, c7_pri_roundtrip 134 (by decide)⟩

/-- Counterexample for C4: at syslog-level integer 2 (Critical), the GELF
mapping yields `Fatal` while the syslog severity mapping yields `Error`,
so the two tables disagree at 2. -/
theorem c4_gelf_level_counterexample :
    gelfToLogLevel 2 = LogLevel.fatal ∧
    (SyslogSeverity.fromCode 2).map SyslogSeverity.toLogLevel =
      some LogLevel.error ∧
    LogLevel.fatal ≠ LogLevel.error := by
  refine ⟨rfl, rfl, by decide⟩

/-- C4 (amended): for every syslog-level integer g in 0..=7 other than 2,
`GelfMessage::to_log_level` agrees with the syslog severity mapping
(`SyslogSeverity::from_code` then `to_log_level`); at g = 2 GELF maps
Critical to `Fatal` whereas syslog maps it to `Error`. -/
theorem c4_gelf_level_agrees_except_critical (g : ℕ) (hg : g < 8) (h2 : g ≠ 2) :
    (SyslogSeverity.fromCode g).map SyslogSeverity.toLogLevel =
      some (gelfToLogLevel g) := by
  have h : ∀ q < 8, q ≠ 2 →
      (SyslogSeverity.fromCode q).map SyslogSeverity.toLogLevel =
        some (gelfToLogLevel q) := by decide
  exact h g hg h2

/-- Witness for C4 (amended) at g = 3. -/
theorem c4_gelf_level_agrees_witness :
    3 < 8 ∧ (3 : ℕ) ≠ 2 ∧
    (SyslogSeverity.fromCode 3).map SyslogSeverity.toLogLevel =
      some (gelfToLogLevel 3) :=
  ⟨by decide, by decide, c4_gelf_level_agrees_except_critical 3 (by decide) (by decide)⟩

/-- Counterexample for C8: with `start_time_unix_nano = 1` and
`end_time_unix_nano = 0`, the `u64` subtraction in `convert_span` wraps,
so `duration_ms` is `(2^64 − 1)/10^6` rather than the exact value
`−1/10^6` the claim asserts for `end < start` inputs. -/
theorem c8_duration_counterexample :
    (convertSpanTimes 1 0).duration_ms = ((2 ^ 64 - 1 : ℚ) / 1000000) ∧
    specDurationMs 1 0 = (-1 : ℚ) / 1000000 ∧
    (convertSpanTimes 1 0).duration_ms ≠ specDurationMs 1 0 := by
  refine ⟨?_, ?_, ?_⟩ <;>
    norm_num [convertSpanTimes, specDurationMs, u64WrapSub, u64Mod]

/-- C8 (amended): `convert_span` sets `duration_ms` to the wrapped
difference `(end_time_unix_nano − start_time_unix_nano) mod 2^64`
divided by 10^6 (floating point modelled as exact rationals); under the
spec invariant `end_time ≥ start_time` (with `end` a `u64`) this equals
the exact `(end_nano − start_nano)/1e6`.  For `end < start` the value
wraps instead. -/
theorem c8_duration_exact_when_ordered (startNano endNano : ℕ)
    (hord : startNano ≤ endNano) (hend : endNano < u64Mod) :
    (convertSpanTimes startNano endNano).duration_ms =
      specDurationMs startNano endNano := by
  have hsub : u64WrapSub endNano startNano = endNano - startNano := by
    unfold u64WrapSub
    have h1 : endNano + u64Mod - startNano = (endNano - startNano) + u64Mod := by
      omega
    rw [h1, Nat.add_mod_right, Nat.mod_eq_of_lt (by omega)]
  unfold convertSpanTimes specDurationMs
  simp only [hsub]
  rw [Nat.cast_sub hord]

/-- Witness for C8 (amended) at `start = 3`, `end = 10`. -/
theorem c8_duration_exact_witness :
    3 ≤ 10 ∧ 10 < u64Mod ∧
    (convertSpanTimes 3 10).duration_ms = specDurationMs 3 10 :=
  ⟨by decide, by norm_num [u64Mod],
    c8_duration_exact_when_ordered 3 10 (by decide) (by norm_num [u64Mod])⟩

/-- The CLEF payload used to refute C5: a decoded `@tr` value that is not
hex (and not 32 characters). -/
def badTraceClef : SerilogLog :=
  { timestamp := 1705314600000
    message := some "hello"
    message_template := none
    level := .info
    exception := none
    event_id := none
    trace_id := some "zz"
    span_id := some "q"
    source_context := some "App"
    application := none
    properties := [] }

/-- Counterexample for C5: the authenticated-UDP/CLEF path accepts a
payload whose `@tr` is `"zz"` and emits the record with
`trace_id = some "zz"`, which is neither hex nor 32 characters long;
no validation happens. -/
theorem c5_trace_id_counterexample :
    (badTraceClef.intoLogEntry "10.0.0.1" 0).trace_id = some "zz" ∧
    ¬ specLowerHex 32 "zz" ∧
    (badTraceClef.intoLogEntry "10.0.0.1" 0).span_id = some "q" ∧
    ¬ specLowerHex 16 "q" := by
  refine ⟨rfl, by decide, rfl, by decide⟩

/-- C5 (amended): the adapters perform no hex validation at all.  The
CLEF path (`SerilogLog::into_log_entry`) copies `@tr` and `@sp` into
`trace_id`/`span_id` verbatim, whatever their content, and the standard
path (`parse_standard_payload`) always emits `trace_id = span_id =
none`; payloads with non-hex trace ids are accepted with those fields
set. -/
theorem c5_trace_id_passthrough (sl : SerilogLog) (inc : IncomingLog)
    (ip : String) (now : ℤ) :
    (sl.intoLogEntry ip now).trace_id = sl.trace_id ∧
    (sl.intoLogEntry ip now).span_id = sl.span_id ∧
    (parseStandardPayload inc ip now).trace_id = none ∧
    (parseStandardPayload inc ip now).span_id = none :=
  ⟨rfl, rfl, rfl, rfl⟩

/-- C6: `AuthValidator::validate` accepts a packet and returns exactly
the bytes after the first 32 iff the packet is at least 32 bytes long
and its first 32 bytes equal the mac of the remaining bytes; shorter
packets give `PacketTooShort`, mac mismatches give `InvalidSignature`;
and `validate (sign p ++ p) = Ok p` for every payload, given that the
mac (HMAC-SHA256) always produces 32 bytes. -/
theorem c6_validate_characterisation (hm : List ℕ → List ℕ → List ℕ)
    (secret packet : List ℕ) (hlen : ∀ s p, (hm s p).length = 32) :
    (∀ q, validate hm secret packet = .ok q ↔
      32 ≤ packet.length ∧ q = packet.drop 32 ∧
        packet.take 32 = hm secret (packet.drop 32)) ∧
    (packet.length < 32 →
      validate hm secret packet = .error .packetTooShort) ∧
    (32 ≤ packet.length →
      packet.take 32 ≠ hm secret (packet.drop 32) →
      validate hm secret packet = .error .invalidSignature) ∧
    (∀ p, validate hm secret (sign hm secret p ++ p) = .ok p) := by
  have veq : ∀ pk : List ℕ, validate hm secret pk =
      if pk.length < 32 then .error .packetTooShort
      else if pk.take 32 = hm secret (pk.drop 32) then .ok (pk.drop 32)
      else .error .invalidSignature := fun _ => rfl
  refine ⟨?_, ?_, ?_, ?_⟩
  · intro q
    rw [veq]
    split_ifs with hshort hsig
    · simp only [reduceCtorEq, false_iff]
      intro h
      omega
    · simp only [Except.ok.injEq]
      constructor
      · intro hq
        exact ⟨by omega, hq.symm, hsig⟩
      · intro h
        exact h.2.1.symm
    · simp only [reduceCtorEq, false_iff]
      intro h
      exact hsig h.2.2
  · intro hshort
    rw [veq, if_pos hshort]
  · intro hge hne
    rw [veq, if_neg (by omega), if_neg hne]
  · intro p
    have hl : (hm secret p).length = 32 := hlen secret p
    have htake : (hm secret p ++ p).take 32 = hm secret p := by
      rw [← hl, List.take_left]
    have hdrop : (hm secret p ++ p).drop 32 = p := by
      rw [← hl, List.drop_left]
    rw [show sign hm secret p = hm secret p from rfl, veq,
      if_neg (by simp [hl]), htake, hdrop, if_pos rfl]

/-- Witness for C6 with a constant 32-byte mac, the empty secret and a
packet of 32 zero bytes followed by payload `[1, 2, 3]`. -/
theorem c6_validate_witness :
    (∀ s p, ((fun _ _ => List.replicate 32 0 : List ℕ → List ℕ → List ℕ) s p).length = 32) ∧
    (∀ q, validate (fun _ _ => List.replicate 32 0) []
        (List.replicate 32 0 ++ [1, 2, 3]) = .ok q ↔
      32 ≤ (List.replicate 32 0 ++ [1, 2, 3] : List ℕ).length ∧
        q = (List.replicate 32 0 ++ [1, 2, 3] : List ℕ).drop 32 ∧
        (List.replicate 32 0 ++ [1, 2, 3] : List ℕ).take 32 =
          (fun _ _ => List.replicate 32 0 : List ℕ → List ℕ → List ℕ) []
            ((List.replicate 32 0 ++ [1, 2, 3] : List ℕ).drop 32)) ∧
    ((List.replicate 32 0 ++ [1, 2, 3] : List ℕ).length < 32 →
      validate (fun _ _ => List.replicate 32 0) []
        (List.replicate 32 0 ++ [1, 2, 3]) = .error .packetTooShort) ∧
    (32 ≤ (List.replicate 32 0 ++ [1, 2, 3] : List ℕ).length →
      (List.replicate 32 0 ++ [1, 2, 3] : List ℕ).take 32 ≠
        (fun _ _ => List.replicate 32 0 : List ℕ → List ℕ → List ℕ) []
          ((List.replicate 32 0 ++ [1, 2, 3] : List ℕ).drop 32) →
      validate (fun _ _ => List.replicate 32 0) []
        (List.replicate 32 0 ++ [1, 2, 3]) = .error .invalidSignature) ∧
    (∀ p, validate (fun _ _ => List.replicate 32 0) []
        (sign (fun _ _ => List.replicate 32 0) [] p ++ p) = .ok p) :=
  ⟨fun _ _ => by simp,
    c6_validate_characterisation (fun _ _ => List.replicate 32 0) []
      (List.replicate 32 0 ++ [1, 2, 3]) (fun _ _ => by simp)⟩

/-- The batcher conservation invariant: flushed batches, the pending
buffer and the queue together hold exactly the enqueued records, in
order. -/
def bContents {α : Type} (s : BState α) : List α :=
  s.store.flatten ++ s.batch ++ s.queue

theorem flushBatch_contents {α : Type} (s : BState α) :
    bContents (flushBatch s) = bContents s := by
  unfold flushBatch bContents
  split_ifs with h
  · rfl
  · simp

theorem bStep_contents {α : Type} (maxBatchSize : ℕ) (s : BState α) (st : BStep) :
    bContents (bStep maxBatchSize s st) = bContents s := by
  cases st with
  | tick => exact flushBatch_contents s
  | recv =>
    unfold bStep
    cases hq : s.queue with
    | nil => rfl
    | cons l rest =>
      dsimp only
      split_ifs with h
      · rw [flushBatch_contents]
        unfold bContents
        simp [hq]
      · unfold bContents
        simp [hq]

theorem bRun_contents {α : Type} (maxBatchSize : ℕ) (steps : List BStep)
    (s : BState α) : bContents (bRun maxBatchSize steps s) = bContents s := by
  induction steps generalizing s with
  | nil => rfl
  | cons st rest ih =>
    unfold bRun at ih ⊢
    rw [List.foldl_cons, ih, bStep_contents]

/-- After `bClose` the buffer is empty. -/
theorem bClose_batch_empty {α : Type} (s : BState α) :
    (bClose s).batch = [] := by
  unfold bClose flushBatch
  split_ifs with h
  · exact List.isEmpty_iff.mp h
  · rfl

/-- C3: for any sequence of `N` successful enqueues into the
`LogBatcher` and any interleaving of receive and flush-timer steps of
`batch_processor` that consumes the whole channel, once the processor
shuts down (flushing the remainder), the repository has received exactly
the `N` enqueued records, and the concatenation of the flushed batches
is exactly the enqueue sequence — so within each batch the records are
in enqueue order. -/
theorem c3_batcher_drains_in_order {α : Type} (maxBatchSize : ℕ)
    (inputs : List α) (steps : List BStep)
    (hdrained : (bRun maxBatchSize steps (bInit inputs)).queue = []) :
    (bClose (bRun maxBatchSize steps (bInit inputs))).store.flatten = inputs ∧
    ((bClose (bRun maxBatchSize steps (bInit inputs))).store.flatten).length
      = inputs.length := by
  have h1 : bContents (bClose (bRun maxBatchSize steps (bInit inputs))) = inputs := by
    have h2 : bContents (bClose (bRun maxBatchSize steps (bInit inputs)))
        = bContents (bRun maxBatchSize steps (bInit inputs)) :=
      flushBatch_contents _
    rw [h2, bRun_contents]
    simp [bContents, bInit]
  have hbatch := bClose_batch_empty (bRun maxBatchSize steps (bInit inputs))
  have hqueue : (bClose (bRun maxBatchSize steps (bInit inputs))).queue = [] := by
    have h3 : (bClose (bRun maxBatchSize steps (bInit inputs))).queue
        = (bRun maxBatchSize steps (bInit inputs)).queue := by
      unfold bClose flushBatch
      split_ifs <;> rfl
    rw [h3, hdrained]
  unfold bContents at h1
  rw [hbatch, hqueue] at h1
  simp only [List.append_nil] at h1
  exact ⟨h1, by rw [h1]⟩

/-- Witness for C3: three records, a schedule that receives two, hits the
flush timer, then receives the third; the store ends with batches
`[[1, 2], [3]]`, concatenating to the enqueue order. -/
theorem c3_batcher_witness :
    (bRun 100 [BStep.recv, BStep.recv, BStep.tick, BStep.recv]
      (bInit [1, 2, 3] : BState ℕ)).queue = [] ∧
    (bClose (bRun 100 [BStep.recv, BStep.recv, BStep.tick, BStep.recv]
      (bInit [1, 2, 3] : BState ℕ))).store.flatten = [1, 2, 3] ∧
    ((bClose (bRun 100 [BStep.recv, BStep.recv, BStep.tick, BStep.recv]
      (bInit [1, 2, 3] : BState ℕ))).store.flatten).length = 3 :=
  ⟨rfl,
    (c3_batcher_drains_in_order 100 [1, 2, 3]
      [BStep.recv, BStep.recv, BStep.tick, BStep.recv] rfl).1,
    (c3_batcher_drains_in_order 100 [1, 2, 3]
      [BStep.recv, BStep.recv, BStep.tick, BStep.recv] rfl).2⟩

/-! ### Metrics tracker lemmas -/

/-- Per-bucket counting invariant: errors are part of the total, and the
six per-level counters together never exceed the total. -/
def BucketOK (b : Bucket) : Prop :=
  b.error + b.fatal ≤ b.total ∧
  b.trace + b.debug + b.info + b.warn + b.error + b.fatal ≤ b.total

/-- All buckets of the tracker satisfy the counting invariant. -/
def TrackerOK (s : Tracker) : Prop :=
  ∀ b ∈ s.buckets, BucketOK b

theorem bumpBucket_ok (level : String) (b : Bucket) (h : BucketOK b) :
    BucketOK (bumpBucket level b) := by
  unfold BucketOK at h ⊢
  unfold bumpBucket
  dsimp only
  split_ifs <;> first | omega | simp_all

theorem bucketNew_ok (ts : ℤ) : BucketOK (Bucket.new ts) := by
  unfold BucketOK Bucket.new
  exact ⟨by simp, by simp⟩

theorem updateLast_mem {f : Bucket → Bucket} {l : List Bucket} {b : Bucket}
    (hb : b ∈ updateLast f l) : b ∈ l ∨ ∃ b0 ∈ l, b = f b0 := by
  induction l with
  | nil => simp [updateLast] at hb
  | cons a l ih =>
    cases l with
    | nil =>
      simp [updateLast] at hb
      exact Or.inr ⟨a, by simp, hb⟩
    | cons a2 l2 =>
      rw [show updateLast f (a :: a2 :: l2) = a :: updateLast f (a2 :: l2) from rfl] at hb
      rcases List.mem_cons.mp hb with hb | hb
      · exact Or.inl (by simp [hb])
      · rcases ih hb with h1 | ⟨b0, hb0, hfb0⟩
        · exact Or.inl (List.mem_cons_of_mem a h1)
        · exact Or.inr ⟨b0, List.mem_cons_of_mem a hb0, hfb0⟩

theorem dropOld_subset {cutoff : ℤ} {l : List Bucket} {b : Bucket}
    (hb : b ∈ dropOld cutoff l) : b ∈ l := by
  induction l with
  | nil => simp [dropOld] at hb
  | cons a l ih =>
    unfold dropOld at hb
    split_ifs at hb with h
    · exact List.mem_cons_of_mem a (ih hb)
    · exact hb

theorem ok_of_mem_appended {s : Tracker} (h : TrackerOK s) (now : ℤ)
    {x : Bucket} (hx : x ∈ s.buckets ++ [Bucket.new now]) : BucketOK x := by
  rcases List.mem_append.mp hx with h1 | h1
  · exact h x h1
  · rw [List.mem_singleton] at h1
    subst h1
    exact bucketNew_ok now

theorem recordLogByLevel_ok (now : ℤ) (level : String) (s : Tracker)
    (h : TrackerOK s) : TrackerOK (recordLogByLevel now level s) := by
  intro b hb
  unfold recordLogByLevel at hb
  dsimp only at hb
  have main : ∀ bs1 : List Bucket, (∀ x ∈ bs1, BucketOK x) →
      b ∈ dropOld (now - metricsWindowSecs) (updateLast (bumpBucket level) bs1) →
      BucketOK b := by
    intro bs1 hok hmem
    rcases updateLast_mem (dropOld_subset hmem) with h1 | ⟨b0, hb0, rfl⟩
    · exact hok b h1
    · exact bumpBucket_ok level b0 (hok b0 hb0)
  rcases hlast : s.buckets.getLast? with _ | b1
  · rw [hlast] at hb
    simp only [if_pos rfl] at hb
    exact main _ (fun x hx => ok_of_mem_appended h now hx) hb
  · rw [hlast] at hb
    by_cases hts : b1.ts = now
    · simp only [hts] at hb
      simp at hb
      exact main _ (fun x hx => h x hx) hb
    · simp [hts] at hb
      exact main _ (fun x hx => ok_of_mem_appended h now hx) hb

theorem recordSpan_ok (code : SpanStatusCode) (s : Tracker)
    (h : TrackerOK s) : TrackerOK (recordSpan code s) := by
  intro b hb
  unfold recordSpan at hb
  split_ifs at hb <;> exact h b hb

/-- Every reachable tracker state satisfies the bucket invariant. -/
theorem reachable_ok {s : Tracker} (h : Reachable s) : TrackerOK s := by
  induction h with
  | init => intro b hb; simp [Tracker.init] at hb
  | log now level _ ih => exact recordLogByLevel_ok now level _ ih
  | span code _ ih => exact recordSpan_ok code _ ih

/-- Dropping expired buckets from the front never changes the set of
buckets inside the window: every dropped bucket fails the window filter
anyway. -/
theorem dropOld_filter (c : ℤ) (l : List Bucket) :
    (dropOld c l).filter (fun b => decide (c ≤ b.ts))
      = l.filter (fun b => decide (c ≤ b.ts)) := by
  induction l with
  | nil => rfl
  | cons a l ih =>
    unfold dropOld
    split_ifs with h
    · rw [ih, List.filter_cons]
      have : (decide (c ≤ a.ts)) = false := by
        simp only [decide_eq_false_iff_not]
        omega
      rw [this]
      simp
    · rfl

theorem updateLast_append (f : Bucket → Bucket) (l : List Bucket) (b : Bucket) :
    updateLast f (l ++ [b]) = l ++ [f b] := by
  induction l with
  | nil => rfl
  | cons a l ih =>
    cases l with
    | nil => rfl
    | cons a2 l2 =>
      show a :: updateLast f ((a2 :: l2) ++ [b]) = a :: ((a2 :: l2) ++ [f b])
      rw [ih]

theorem getLast_decomp {α : Type} {l : List α} {b : α}
    (h : l.getLast? = some b) : ∃ l0, l = l0 ++ [b] := by
  induction l with
  | nil => simp at h
  | cons a l ih =>
    cases l with
    | nil =>
      simp at h
      exact ⟨[], by simp [h]⟩
    | cons a2 l2 =>
      rw [List.getLast?_cons_cons] at h
      obtain ⟨l0, hl0⟩ := ih h
      exact ⟨a :: l0, by simp [hl0]⟩

theorem getLast_none_nil {α : Type} {l : List α} (h : l.getLast? = none) :
    l = [] := by
  cases l with
  | nil => rfl
  | cons a l =>
    exfalso
    cases hl : (a :: l).getLast? with
    | none =>
      have := List.getLast?_isSome (l := a :: l)
      simp [hl] at this
    | some b => rw [hl] at h; exact Option.noConfusion h

theorem sum_map_add_split (l : List Bucket) (f g : Bucket → ℕ) :
    (l.map (fun b => f b + g b)).sum = (l.map f).sum + (l.map g).sum := by
  induction l with
  | nil => rfl
  | cons a l ih =>
    simp only [List.map_cons, List.sum_cons, ih]
    omega

/-- The per-field sum over the live window after one
`record_log_by_level` call, with the snapshot taken at the call's own
wall-clock second: the bump's delta `d` on the field is added once. -/
theorem live_map_sum_record (now : ℤ) (level : String) (s : Tracker)
    (f : Bucket → ℕ) (d : ℕ)
    (hbump : ∀ b, f (bumpBucket level b) = f b + d)
    (hnew : f (Bucket.new now) = 0) :
    ((liveBuckets now (recordLogByLevel now level s)).map f).sum
      = ((liveBuckets now s).map f).sum + d := by
  have hkeep : ∀ x : Bucket, x.ts = now →
      (decide (now - metricsWindowSecs ≤ x.ts)) = true := by
    intro x hx
    simp only [decide_eq_true_eq, hx, metricsWindowSecs]
    omega
  have hsing : ∀ x : Bucket, x.ts = now →
      List.filter (fun b => decide (now - metricsWindowSecs ≤ b.ts)) [x] = [x] := by
    intro x hx
    rw [List.filter_cons_of_pos (by exact hkeep x hx), List.filter_nil]
  have haux : ∀ (front : List Bucket) (bl : Bucket), bl.ts = now →
      ((List.filter (fun b => decide (now - metricsWindowSecs ≤ b.ts))
          (dropOld (now - metricsWindowSecs)
            (updateLast (bumpBucket level) (front ++ [bl])))).map f).sum
        = ((front.filter (fun b => decide (now - metricsWindowSecs ≤ b.ts))).map f).sum
          + f bl + d := by
    intro front bl hts
    rw [dropOld_filter, updateLast_append, List.filter_append]
    rw [hsing (bumpBucket level bl) hts]
    rw [List.map_append, List.sum_append]
    simp only [List.map_cons, List.map_nil, List.sum_cons, List.sum_nil, hbump]
    omega
  suffices h : ∃ front bl, bl.ts = now ∧
      (recordLogByLevel now level s).buckets
        = dropOld (now - metricsWindowSecs)
            (updateLast (bumpBucket level) (front ++ [bl])) ∧
      ((liveBuckets now s).map f).sum + d
        = ((front.filter (fun b => decide (now - metricsWindowSecs ≤ b.ts))).map f).sum
          + f bl + d by
    obtain ⟨front, bl, hts, hbk, hbefore⟩ := h
    rw [show liveBuckets now (recordLogByLevel now level s)
        = (recordLogByLevel now level s).buckets.filter
            (fun b => decide (now - metricsWindowSecs ≤ b.ts)) from rfl]
    rw [hbk, haux front bl hts, ← hbefore]
  rcases hlast : s.buckets.getLast? with _ | b1
  · have hnil := getLast_none_nil hlast
    refine ⟨[], Bucket.new now, rfl, ?_, ?_⟩
    · unfold recordLogByLevel
      dsimp only
      rw [hlast, hnil]
      rfl
    · rw [hnew]
      unfold liveBuckets
      rw [hnil]
      rfl
  · by_cases hts : b1.ts = now
    · obtain ⟨l0, hl0⟩ := getLast_decomp hlast
      refine ⟨l0, b1, hts, ?_, ?_⟩
      · unfold recordLogByLevel
        dsimp only
        rw [hlast, if_neg (by simp [hts]), hl0]
      · unfold liveBuckets
        rw [hl0, List.filter_append, hsing b1 hts]
        rw [List.map_append, List.sum_append]
        simp only [List.map_cons, List.map_nil, List.sum_cons, List.sum_nil]
        omega
    · refine ⟨s.buckets, Bucket.new now, rfl, ?_, ?_⟩
      · unfold recordLogByLevel
        dsimp only
        rw [hlast, if_pos (by simp [hts])]
      · rw [hnew]
        rfl

theorem sum_levels_le (l : List Bucket) (h : ∀ b ∈ l, BucketOK b) :
    (l.map Bucket.trace).sum + (l.map Bucket.debug).sum + (l.map Bucket.info).sum
      + (l.map Bucket.warn).sum + (l.map Bucket.error).sum + (l.map Bucket.fatal).sum
      ≤ (l.map Bucket.total).sum := by
  induction l with
  | nil => simp
  | cons a l ih =>
    simp only [List.map_cons, List.sum_cons]
    have h1 := (h a (List.mem_cons_self a l)).2
    have h2 := ih fun b hb => h b (List.mem_cons_of_mem a hb)
    omega

theorem live_mem_buckets {now : ℤ} {s : Tracker} {b : Bucket}
    (hb : b ∈ liveBuckets now s) : b ∈ s.buckets := by
  unfold liveBuckets at hb
  exact List.mem_of_mem_filter hb

/-- C2: in every snapshot of a reachable tracker state, `error_rate` lies
in [0, 1]; it equals `errors_last_minute / logs_last_minute` whenever
`logs_last_minute > 0` and is 0 when `logs_last_minute = 0` (floating
point modelled as exact rationals). -/
theorem c2_error_rate_bounds (s : Tracker) (hs : Reachable s) (t : ℤ) :
    0 ≤ (getMetrics t s).error_rate ∧
    (getMetrics t s).error_rate ≤ 1 ∧
    (0 < (getMetrics t s).logs_last_minute →
      (getMetrics t s).error_rate =
        ((getMetrics t s).errors_last_minute : ℚ) /
          ((getMetrics t s).logs_last_minute : ℚ)) ∧
    ((getMetrics t s).logs_last_minute = 0 → (getMetrics t s).error_rate = 0) := by
  have hproj_er : (getMetrics t s).error_rate
      = (if 0 < ((liveBuckets t s).map Bucket.total).sum
          then ((((liveBuckets t s).map fun b => b.error + b.fatal).sum : ℕ) : ℚ) /
            ((((liveBuckets t s).map Bucket.total).sum : ℕ) : ℚ)
          else 0) := rfl
  have hproj_llm : (getMetrics t s).logs_last_minute
      = ((liveBuckets t s).map Bucket.total).sum := rfl
  have hproj_elm : (getMetrics t s).errors_last_minute
      = ((liveBuckets t s).map fun b => b.error + b.fatal).sum := rfl
  have hle : ((liveBuckets t s).map fun b => b.error + b.fatal).sum
      ≤ ((liveBuckets t s).map Bucket.total).sum := by
    apply List.sum_le_sum
    intro b hb
    exact (reachable_ok hs b (live_mem_buckets hb)).1
  refine ⟨?_, ?_, ?_, ?_⟩
  · rw [hproj_er]
    split_ifs with h
    · positivity
    · exact le_refl 0
  · rw [hproj_er]
    split_ifs with h
    · rw [div_le_one (by exact_mod_cast h)]
      exact_mod_cast hle
    · norm_num
  · intro hpos
    rw [hproj_llm] at hpos
    rw [hproj_er, hproj_llm, hproj_elm, if_pos hpos]
  · intro h0
    rw [hproj_llm] at h0
    rw [hproj_er, if_neg (by omega)]

/-- Witness for C2: record one `"ERROR"` log at second 5 and snapshot at
second 5. -/
theorem c2_error_rate_witness :
    Reachable (recordLogByLevel 5 "ERROR" Tracker.init) ∧
    (0 ≤ (getMetrics 5 (recordLogByLevel 5 "ERROR" Tracker.init)).error_rate ∧
     (getMetrics 5 (recordLogByLevel 5 "ERROR" Tracker.init)).error_rate ≤ 1 ∧
     (0 < (getMetrics 5 (recordLogByLevel 5 "ERROR" Tracker.init)).logs_last_minute →
       (getMetrics 5 (recordLogByLevel 5 "ERROR" Tracker.init)).error_rate =
         ((getMetrics 5 (recordLogByLevel 5 "ERROR" Tracker.init)).errors_last_minute : ℚ) /
           ((getMetrics 5 (recordLogByLevel 5 "ERROR" Tracker.init)).logs_last_minute : ℚ)) ∧
     ((getMetrics 5 (recordLogByLevel 5 "ERROR" Tracker.init)).logs_last_minute = 0 →
       (getMetrics 5 (recordLogByLevel 5 "ERROR" Tracker.init)).error_rate = 0)) :=
  ⟨Reachable.log 5 "ERROR" Reachable.init,
    c2_error_rate_bounds _ (Reachable.log 5 "ERROR" Reachable.init) 5⟩

theorem recordSpan_buckets (code : SpanStatusCode) (s : Tracker) :
    (recordSpan code s).buckets = s.buckets := by
  unfold recordSpan
  split_ifs <;> rfl

theorem recordLogByLevel_buckets_congr (now : ℤ) (level : String)
    {s1 s2 : Tracker} (h : s1.buckets = s2.buckets) :
    (recordLogByLevel now level s1).buckets
      = (recordLogByLevel now level s2).buckets := by
  unfold recordLogByLevel
  dsimp only
  rw [h]

theorem getMetrics_buckets_congr (t : ℤ) {s1 s2 : Tracker}
    (h : s1.buckets = s2.buckets) : getMetrics t s1 = getMetrics t s2 := by
  unfold getMetrics liveBuckets
  rw [h]

theorem applyOps_filter_buckets (ops : List MOp) :
    ∀ s1 s2 : Tracker, s1.buckets = s2.buckets →
      (applyOps s1 ops).buckets = (applyOps s2 (ops.filter MOp.isLog)).buckets := by
  induction ops with
  | nil => intro s1 s2 h; exact h
  | cons op rest ih =>
    intro s1 s2 h
    cases op with
    | recLog now level =>
      rw [show (MOp.recLog now level :: rest).filter MOp.isLog
          = MOp.recLog now level :: rest.filter MOp.isLog from rfl]
      exact ih _ _ (recordLogByLevel_buckets_congr now level h)
    | recSpan code =>
      rw [show (MOp.recSpan code :: rest).filter MOp.isLog
          = rest.filter MOp.isLog from rfl]
      exact ih _ _ ((recordSpan_buckets code s1).trans h)

/-- C9: for any interleaving of `record_span` and `record_log` calls the
snapshot returned by `get_metrics` is exactly the snapshot of the same
sequence with the `record_span` calls removed: spans leave the bucket
state unchanged and count toward none of `logs_per_second`,
`error_rate`, `errors_per_second`, `logs_last_minute`,
`errors_last_minute` or `logs_by_level`. -/
theorem c9_spans_do_not_count (s : Tracker) (ops : List MOp) (t : ℤ) :
    getMetrics t (applyOps s ops) = getMetrics t (applyOps s (ops.filter MOp.isLog)) :=
  getMetrics_buckets_congr t (applyOps_filter_buckets ops s s rfl)

/-- C10: in every snapshot of a reachable tracker the six per-level
counts sum to at most `logs_last_minute`; and recording a level string
outside the six known names raises `logs_last_minute` (and
`logs_per_second` by 1/60) while changing no per-level counter and no
error count — so the inequality can be strict. -/
theorem c10_levels_bounded_and_unknown_level (s : Tracker) (hs : Reachable s)
    (t now : ℤ) (level : String)
    (hlevel : level ∉ (["TRACE", "DEBUG", "INFO", "WARN", "ERROR", "FATAL"] :
      List String)) :
    (getMetrics t s).logs_by_level.sumLevels ≤ (getMetrics t s).logs_last_minute ∧
    (getMetrics now (recordLogByLevel now level s)).logs_last_minute
      = (getMetrics now s).logs_last_minute + 1 ∧
    (getMetrics now (recordLogByLevel now level s)).logs_by_level
      = (getMetrics now s).logs_by_level ∧
    (getMetrics now (recordLogByLevel now level s)).errors_last_minute
      = (getMetrics now s).errors_last_minute ∧
    (getMetrics now (recordLogByLevel now level s)).logs_per_second
      = (getMetrics now s).logs_per_second + 1 / 60 := by
  simp only [List.mem_cons, List.mem_singleton, not_or, List.not_mem_nil,
    or_false] at hlevel
  obtain ⟨hne1, hne2, hne3, hne4, hne5, hne6⟩ := hlevel
  have htot := live_map_sum_record now level s Bucket.total 1
    (fun b => rfl) rfl
  have htr := live_map_sum_record now level s Bucket.trace 0
    (fun b => by unfold bumpBucket; dsimp only; rw [if_neg hne1]; omega) rfl
  have hdb := live_map_sum_record now level s Bucket.debug 0
    (fun b => by unfold bumpBucket; dsimp only; rw [if_neg hne2]; omega) rfl
  have hin := live_map_sum_record now level s Bucket.info 0
    (fun b => by unfold bumpBucket; dsimp only; rw [if_neg hne3]; omega) rfl
  have hwa := live_map_sum_record now level s Bucket.warn 0
    (fun b => by unfold bumpBucket; dsimp only; rw [if_neg hne4]; omega) rfl
  have her := live_map_sum_record now level s Bucket.error 0
    (fun b => by unfold bumpBucket; dsimp only; rw [if_neg hne5]; omega) rfl
  have hfa := live_map_sum_record now level s Bucket.fatal 0
    (fun b => by unfold bumpBucket; dsimp only; rw [if_neg hne6]; omega) rfl
  have herrs := live_map_sum_record now level s (fun b => b.error + b.fatal) 0
    (fun b => by unfold bumpBucket; dsimp only; rw [if_neg hne5, if_neg hne6]; omega) rfl
  refine ⟨?_, ?_, ?_, ?_, ?_⟩
  · have hb : ∀ b ∈ liveBuckets t s, BucketOK b :=
      fun b hb => reachable_ok hs b (live_mem_buckets hb)
    exact sum_levels_le (liveBuckets t s) hb
  · exact htot
  · show LogsByLevel.mk _ _ _ _ _ _ = LogsByLevel.mk _ _ _ _ _ _
    rw [htr, hdb, hin, hwa, her, hfa]
    simp
  · show ((liveBuckets now (recordLogByLevel now level s)).map
        fun b => b.error + b.fatal).sum = _
    rw [herrs]
    rfl
  · show (((((liveBuckets now (recordLogByLevel now level s)).map
        Bucket.total).sum : ℕ) : ℚ) / 60)
      = (((((liveBuckets now s).map Bucket.total).sum : ℕ) : ℚ) / 60) + 1 / 60
    rw [htot]
    push_cast
    ring

/-- Witness for C10: one `"ERROR"` record at second 3, then an unknown
`"NOTICE"` record at second 4. -/
theorem c10_unknown_level_witness :
    Reachable (recordLogByLevel 3 "ERROR" Tracker.init) ∧
    ("NOTICE" ∉ (["TRACE", "DEBUG", "INFO", "WARN", "ERROR", "FATAL"] :
      List String)) ∧
    ((getMetrics 4 (recordLogByLevel 3 "ERROR" Tracker.init)).logs_by_level.sumLevels
      ≤ (getMetrics 4 (recordLogByLevel 3 "ERROR" Tracker.init)).logs_last_minute ∧
     (getMetrics 4 (recordLogByLevel 4 "NOTICE"
        (recordLogByLevel 3 "ERROR" Tracker.init))).logs_last_minute
      = (getMetrics 4 (recordLogByLevel 3 "ERROR" Tracker.init)).logs_last_minute + 1 ∧
     (getMetrics 4 (recordLogByLevel 4 "NOTICE"
        (recordLogByLevel 3 "ERROR" Tracker.init))).logs_by_level
      = (getMetrics 4 (recordLogByLevel 3 "ERROR" Tracker.init)).logs_by_level ∧
     (getMetrics 4 (recordLogByLevel 4 "NOTICE"
        (recordLogByLevel 3 "ERROR" Tracker.init))).errors_last_minute
      = (getMetrics 4 (recordLogByLevel 3 "ERROR" Tracker.init)).errors_last_minute ∧
     (getMetrics 4 (recordLogByLevel 4 "NOTICE"
        (recordLogByLevel 3 "ERROR" Tracker.init))).logs_per_second
      = (getMetrics 4 (recordLogByLevel 3 "ERROR" Tracker.init)).logs_per_second
        + 1 / 60) :=
  ⟨Reachable.log 3 "ERROR" Reachable.init, by decide,
    c10_levels_bounded_and_unknown_level _
      (Reachable.log 3 "ERROR" Reachable.init) 4 4 "NOTICE" (by decide)⟩

/-! ### Alert engine lemmas -/

/-- The dispatch times of a given rule id within an event list. -/
def evTimes (id : String) (evs : List (String × ℤ)) : List ℤ :=
  (evs.filter fun e => decide (e.1 = id)).map Prod.snd

theorem evTimes_append (id : String) (l1 l2 : List (String × ℤ)) :
    evTimes id (l1 ++ l2) = evTimes id l1 ++ evTimes id l2 := by
  unfold evTimes
  rw [List.filter_append, List.map_append]

theorem evTimes_cons_self (id : String) (t : ℤ) (l : List (String × ℤ)) :
    evTimes id ((id, t) :: l) = t :: evTimes id l := by
  unfold evTimes
  rw [List.filter_cons_of_pos (by simp)]
  rfl

theorem evTimes_cons_other {id id2 : String} (hne : id2 ≠ id) (t : ℤ)
    (l : List (String × ℤ)) : evTimes id ((id2, t) :: l) = evTimes id l := by
  unfold evTimes
  rw [List.filter_cons_of_neg (by simp [hne])]

/-- Invariant tying the cooldown map entry for `id` to the dispatch
times recorded so far: the times are spaced at least `C` seconds apart,
and the map holds the most recent one, which is no later than `T`. -/
def LtOK (C : ℤ) (id : String) (lt : TriggerMap) (T : ℤ) (tms : List ℤ) : Prop :=
  List.Chain' (fun a b => a + C * 1000 ≤ b) tms ∧
  match lt id with
  | none => tms = []
  | some t0 => tms.getLast? = some t0 ∧ t0 ≤ T

theorem LtOK.mono {C : ℤ} {id : String} {lt : TriggerMap} {T T2 : ℤ}
    {tms : List ℤ} (h : LtOK C id lt T tms) (hT : T ≤ T2) :
    LtOK C id lt T2 tms := by
  obtain ⟨hchain, hm⟩ := h
  refine ⟨hchain, ?_⟩
  cases hlt : lt id with
  | none => rw [hlt] at hm; exact hm
  | some t0 =>
    rw [hlt] at hm
    exact ⟨hm.1, le_trans hm.2 hT⟩

/-- The cooldown guard: a rule whose map entry is `t0 ≤ now` passes the
`elapsed < cooldown` check only when at least `C` whole seconds have
passed, i.e. `now − t0 ≥ 1000·C` milliseconds. -/
theorem cooldown_elapsed {C t0 now : ℤ} (hT : t0 ≤ now)
    (hcd : ¬ numSeconds (now - t0) < C) : t0 + C * 1000 ≤ now := by
  have hd : (0 : ℤ) ≤ now - t0 := by omega
  unfold numSeconds at hcd
  rw [Int.tdiv_eq_ediv hd (by norm_num)] at hcd
  have := (Int.le_ediv_iff_mul_le (by norm_num)).mp (not_lt.mp hcd)
  omega

theorem insert_self (lt : TriggerMap) (k : String) (v : ℤ) :
    (lt.insert k v) k = some v := by
  unfold TriggerMap.insert
  rw [if_pos rfl]

theorem insert_other (lt : TriggerMap) {k k2 : String} (hne : k ≠ k2) (v : ℤ) :
    (lt.insert k2 v) k = lt k := by
  unfold TriggerMap.insert
  rw [if_neg hne]

theorem chain_snoc {C : ℤ} {tms : List ℤ} {t0 x : ℤ}
    (hc : List.Chain' (fun a b => a + C * 1000 ≤ b) tms)
    (hl : tms.getLast? = some t0) (ht : t0 + C * 1000 ≤ x) :
    List.Chain' (fun a b => a + C * 1000 ≤ b) (tms ++ [x]) := by
  rw [List.chain'_append]
  refine ⟨hc, List.chain'_singleton x, ?_⟩
  intro a ha b hb
  simp only [List.head?_cons, Option.mem_def, Option.some.injEq] at hb
  subst hb
  rw [hl] at ha
  simp only [Option.mem_def, Option.some.injEq] at ha
  subst ha
  exact ht

/-- One evaluation tick preserves the cooldown invariant, extending the
dispatch-time list with the events of the tick. -/
theorem processAlerts_ltOK (C : ℤ) (hC : 0 < C) (now : ℤ)
    (m : RealtimeMetrics) (id : String) :
    ∀ (as : List MAlert) (lt : TriggerMap) (tms : List ℤ),
      LtOK C id lt now tms →
      LtOK C id (processAlerts C now m as lt).1 now
        (tms ++ evTimes id (processAlerts C now m as lt).2) := by
  intro as
  induction as with
  | nil =>
    intro lt tms h
    simpa [processAlerts, evTimes] using h
  | cons a rest ih =>
    intro lt tms h
    by_cases hen : a.enabled = false
    · simp only [processAlerts]
      rw [if_pos hen]
      exact ih lt tms h
    · rcases hlt : lt a.alertId with _ | t0
      · -- no cooldown entry: the guard passes
        cases hst : shouldTrigger a.condition m with
        | false =>
          simp only [processAlerts, if_neg hen, hlt, hst, Bool.false_eq_true,
            if_false]
          exact ih lt tms h
        | true =>
          simp only [processAlerts, if_neg hen, hlt, hst, Bool.false_eq_true,
            if_false, eq_self_iff_true, if_true]
          by_cases hid : a.alertId = id
          · subst hid
            have hm := h.2
            rw [hlt] at hm
            subst hm
            have h2 : LtOK C a.alertId (lt.insert a.alertId now) now
                ([] ++ [now]) := by
              refine ⟨by simp [List.chain'_singleton], ?_⟩
              rw [insert_self]
              simp
            have h3 := ih (lt.insert a.alertId now) ([] ++ [now]) h2
            rw [evTimes_cons_self]
            simpa using h3
          · have h2 : LtOK C id (lt.insert a.alertId now) now tms := by
              refine ⟨h.1, ?_⟩
              rw [insert_other lt (fun hh => hid hh.symm) now]
              exact h.2
            have h3 := ih (lt.insert a.alertId now) tms h2
            rw [evTimes_cons_other hid]
            exact h3
      · by_cases hcd : numSeconds (now - t0) < C
        · -- still cooling: skip
          simp only [processAlerts, if_neg hen, hlt, decide_eq_true hcd,
            eq_self_iff_true, if_true]
          exact ih lt tms h
        · cases hst : shouldTrigger a.condition m with
          | false =>
            simp only [processAlerts, if_neg hen, hlt, decide_eq_false hcd,
              hst, Bool.false_eq_true, if_false]
            exact ih lt tms h
          | true =>
            simp only [processAlerts, if_neg hen, hlt, decide_eq_false hcd,
              hst, Bool.false_eq_true, if_false, eq_self_iff_true, if_true]
            by_cases hid : a.alertId = id
            · subst hid
              have hm := h.2
              rw [hlt] at hm
              obtain ⟨hlast, hT⟩ := hm
              have hsep := cooldown_elapsed hT hcd
              have h2 : LtOK C a.alertId (lt.insert a.alertId now) now
                  (tms ++ [now]) := by
                refine ⟨chain_snoc h.1 hlast hsep, ?_⟩
                rw [insert_self]
                simp
              have h3 := ih (lt.insert a.alertId now) (tms ++ [now]) h2
              rw [evTimes_cons_self]
              rw [show tms ++ (now :: evTimes a.alertId
                  (processAlerts C now m rest (lt.insert a.alertId now)).2)
                = (tms ++ [now]) ++ evTimes a.alertId
                  (processAlerts C now m rest (lt.insert a.alertId now)).2 by simp]
              exact h3
            · have h2 : LtOK C id (lt.insert a.alertId now) now tms := by
                refine ⟨h.1, ?_⟩
                rw [insert_other lt (fun hh => hid hh.symm) now]
                exact h.2
              have h3 := ih (lt.insert a.alertId now) tms h2
              rw [evTimes_cons_other hid]
              exact h3

/-- Running a sequence of ticks with nondecreasing times preserves the
cooldown invariant. -/
theorem runTicks_ltOK (C : ℤ) (hC : 0 < C) (id : String) :
    ∀ (ticks : List Tick) (lt : TriggerMap) (tms : List ℤ) (T : ℤ),
      LtOK C id lt T tms →
      List.Chain' (fun t1 t2 : Tick => t1.time ≤ t2.time) ticks →
      (∀ t0 ∈ ticks.head?, T ≤ t0.time) →
      ∃ T2, LtOK C id (runTicks C ticks lt).1 T2
        (tms ++ evTimes id (runTicks C ticks lt).2) := by
  intro ticks
  induction ticks with
  | nil =>
    intro lt tms T h _ _
    exact ⟨T, by simpa [runTicks, evTimes] using h⟩
  | cons t rest ih =>
    intro lt tms T h hchain hfirst
    have hT : T ≤ t.time := hfirst t (by simp)
    have h1 := processAlerts_ltOK C hC t.time t.metrics id t.alerts lt tms
      (h.mono hT)
    obtain ⟨hhead, htail⟩ := List.chain'_cons'.mp hchain
    obtain ⟨T2, h2⟩ := ih (processAlerts C t.time t.metrics t.alerts lt).1
      (tms ++ evTimes id (processAlerts C t.time t.metrics t.alerts lt).2)
      t.time h1 htail hhead
    refine ⟨T2, ?_⟩
    simp only [runTicks]
    rw [evTimes_append, ← List.append_assoc]
    exact h2

/-- C1: over any run of evaluation ticks with nondecreasing wall-clock
times, the dispatch events of a fixed rule id (each dispatching its
notification and incrementing `trigger_count`) are pairwise at least
`C·1000` milliseconds apart, starting from a fresh cooldown map.  Hence
any half-open window of `C` seconds contains at most one firing of the
rule, however often its condition holds. -/
theorem c1_alert_cooldown_spacing (C : ℤ) (hC : 0 < C) (ticks : List Tick)
    (hmono : TicksMono ticks) (id : String) :
    List.Pairwise (fun a b : ℤ => a + C * 1000 ≤ b)
      (evTimes id (runTicks C ticks TriggerMap.empty).2) := by
  haveI : IsTrans ℤ (fun a b : ℤ => a + C * 1000 ≤ b) :=
    ⟨fun x y z hxy hyz => by omega⟩
  cases ticks with
  | nil => simp [runTicks, evTimes]
  | cons t rest =>
    have hinit : LtOK C id TriggerMap.empty t.time [] :=
      ⟨List.chain'_nil, rfl⟩
    have hfirst : ∀ t0 ∈ (t :: rest).head?, t.time ≤ t0.time := by
      intro t0 ht0
      simp only [List.head?_cons, Option.mem_def, Option.some.injEq] at ht0
      subst ht0
      exact le_refl _
    obtain ⟨T2, h⟩ := runTicks_ltOK C hC id (t :: rest) TriggerMap.empty []
      t.time hinit hmono hfirst
    have hchain := h.1
    simp only [List.nil_append] at hchain
    exact List.chain'_iff_pairwise.mp hchain

/-- A concrete rule and metrics snapshot for the C1 witness. -/
def demoMetrics : RealtimeMetrics :=
  { logs_per_second := 1
    error_rate := 1
    errors_per_second := 1
    logs_last_minute := 60
    errors_last_minute := 60
    logs_by_level :=
      { trace := 0, debug := 0, info := 0, warn := 0, error := 60, fatal := 0 }
    timestamp := 0 }

/-- A concrete always-firing rule for the C1 witness. -/
def demoAlert : MAlert :=
  { alertId := "r1", enabled := true, condition := .errorRate 0 }

/-- Witness for C1: cooldown 60 s, two ticks 61 s apart with the
condition holding at both. -/
theorem c1_alert_cooldown_witness :
    (0 : ℤ) < 60 ∧
    TicksMono [⟨0, demoMetrics, [demoAlert]⟩, ⟨61000, demoMetrics, [demoAlert]⟩] ∧
    List.Pairwise (fun a b : ℤ => a + 60 * 1000 ≤ b)
      (evTimes "r1" (runTicks 60
        [⟨0, demoMetrics, [demoAlert]⟩, ⟨61000, demoMetrics, [demoAlert]⟩]
        TriggerMap.empty).2) :=
  ⟨by decide,
    by
      unfold TicksMono
      rw [List.chain'_cons]
      exact ⟨by norm_num, List.chain'_singleton _⟩,
    c1_alert_cooldown_spacing 60 (by decide)
      [⟨0, demoMetrics, [demoAlert]⟩, ⟨61000, demoMetrics, [demoAlert]⟩]
      (by
        unfold TicksMono
        rw [List.chain'_cons]
        exact ⟨by norm_num, List.chain'_singleton _⟩) "r1"⟩

end Kartex
